import Mathlib

/-!
Verification development for the inventory-ledger bot in `src/app.py`.

The worksheets are modelled as raw grids `List (List String)` (row 0 is the
header row, as stored in the sheet).  Python primitives (`int()`, `str.lower`,
`str.strip`, `str.isdigit`, `" ".join`) are embedded as executable Lean
functions on character lists.  Command tokenization (shlex quoting) is an
external collaborator per spec section 1; it is modelled as whitespace
splitting, and all theorems about command handling take the token list as a
hypothesis, so they do not depend on quoting details.
-/

set_option autoImplicit false

namespace LineBot

/-- ASCII digit test, the fragment of Python `str.isdigit` exercised here. -/
def isDig (c : Char) : Bool := 48 ≤ c.toNat && c.toNat ≤ 57

/-- Value of a digit string, most significant digit first. -/
def digitsVal (ds : List Char) : Nat := ds.foldl (fun a c => a * 10 + (c.toNat - 48)) 0

/-- Character for a single decimal digit. -/
def digitChar (m : Nat) : Char := Char.ofNat (48 + m)

theorem dropWhile_length_le {α : Type} (p : α → Bool) :
    ∀ l : List α, (l.dropWhile p).length ≤ l.length := by
  intro l
  induction l with
  | nil => simp [List.dropWhile]
  | cons a t ih =>
    simp only [List.dropWhile]
    cases p a <;> simp <;> omega

/-- Fuel-driven digit expansion; `fuel ≥ n` always suffices. -/
def natToDigitsGo : Nat → Nat → List Char
  | 0, n => [digitChar n]
  | fuel + 1, n =>
    if n < 10 then [digitChar n]
    else natToDigitsGo fuel (n / 10) ++ [digitChar (n % 10)]

/-- Decimal digits of a natural number, as Python `str` renders it. -/
def natToDigits (n : Nat) : List Char := natToDigitsGo n n

/-- Rendering of an integer, as Python `str(int)` produces it. -/
def intToStr (n : Int) : String :=
  match n with
  | Int.ofNat m => ⟨natToDigits m⟩
  | Int.negSucc m => ⟨'-' :: natToDigits (m + 1)⟩

/-- Leading/trailing whitespace removal, as Python `str.strip`. -/
def stripWS (cs : List Char) : List Char :=
  ((cs.dropWhile Char.isWhitespace).reverse.dropWhile Char.isWhitespace).reverse

/-- Digit-run parse used inside `pyInt`: nonempty all-digit strings only. -/
def natCore (ds : List Char) : Option Nat :=
  if ds ≠ [] ∧ ds.all isDig then some (digitsVal ds) else none

/-- Signed integer parse on a stripped character list. -/
def pyIntCore (cs : List Char) : Option Int :=
  match cs with
  | [] => none
  | c :: rest =>
    if c = '-' then (natCore rest).map (fun n => -(n : Int))
    else if c = '+' then (natCore rest).map (fun n => (n : Int))
    else (natCore (c :: rest)).map (fun n => (n : Int))

/-- Python `int(str)`: strip whitespace, optional single sign, decimal digits. -/
def pyInt (s : String) : Option Int := pyIntCore (stripWS s.toList)

/-- Recognition test `tokens[2].lstrip("-").isdigit()` from the source. -/
def lstripDashIsdigit (s : String) : Bool :=
  !(s.toList.dropWhile (fun c => c = '-')).isEmpty &&
    (s.toList.dropWhile (fun c => c = '-')).all isDig

/-- ASCII lower-casing of one character, as used by `str.lower` on commands. -/
def lowerChar (c : Char) : Char :=
  if 65 ≤ c.toNat ∧ c.toNat ≤ 90 then Char.ofNat (c.toNat + 32) else c

/-- Python `str.lower` (ASCII fragment). -/
def strLower (s : String) : String := ⟨s.toList.map lowerChar⟩

/-- Python `str.startswith`. -/
def strStartsWith (s p : String) : Bool := p.toList.isPrefixOf s.toList

/-- Python `str.strip` on a `String`. -/
def pyStrip (s : String) : String := ⟨stripWS s.toList⟩

/-- Fuel-driven whitespace splitter; fuel `cs.length` always suffices. -/
def wsSplitGo : Nat → List Char → List (List Char)
  | _, [] => []
  | 0, _ :: _ => []
  | fuel + 1, c :: rest =>
    if c.isWhitespace then wsSplitGo fuel rest
    else (c :: rest.takeWhile (fun d => !d.isWhitespace)) ::
      wsSplitGo fuel (rest.dropWhile (fun d => !d.isWhitespace))

/-- Whitespace tokenizer standing in for the external shlex tokenization. -/
def wsSplitL (cs : List Char) : List (List Char) := wsSplitGo cs.length cs

/-- Token list of a command line. -/
def wsTokens (s : String) : List String := (wsSplitL s.toList).map (fun l => ⟨l⟩)

/-- Python `" ".join`. -/
def joinSpaces : List String → String
  | [] => ""
  | [x] => x
  | x :: y :: rest => x ++ " " ++ joinSpaces (y :: rest)

/-- Python `"\n".join`. -/
def joinNL : List String → String
  | [] => ""
  | [x] => x
  | x :: y :: rest => x ++ "\n" ++ joinNL (y :: rest)

/-- Python truthiness fallback `a or b` for an optional string. -/
def pyOr (a : Option String) (b : String) : String :=
  match a with
  | some s => if s = "" then b else s
  | none => b

theorem digitChar_toNat : ∀ m, m < 10 → (digitChar m).toNat = 48 + m ∧ isDig (digitChar m) = true := by
  decide

theorem digitsVal_append (ds : List Char) (c : Char) :
    digitsVal (ds ++ [c]) = 10 * digitsVal ds + (c.toNat - 48) := by
  simp only [digitsVal, List.foldl_append, List.foldl_cons, List.foldl_nil]
  ring

theorem natToDigitsGo_spec :
    ∀ fuel n, n ≤ fuel ∨ n < 10 →
      digitsVal (natToDigitsGo fuel n) = n ∧ natToDigitsGo fuel n ≠ [] ∧
        (natToDigitsGo fuel n).all isDig = true := by
  intro fuel
  induction fuel with
  | zero =>
    intro n hn
    have h10 : n < 10 := by omega
    simp only [natToDigitsGo]
    refine ⟨?_, by simp, ?_⟩
    · simp [digitsVal, (digitChar_toNat n h10).1]
    · simp [List.all_cons, (digitChar_toNat n h10).2]
  | succ f ih =>
    intro n hn
    by_cases h : n < 10
    · simp only [natToDigitsGo, if_pos h]
      refine ⟨?_, by simp, ?_⟩
      · simp [digitsVal, (digitChar_toNat n h).1]
      · simp [List.all_cons, (digitChar_toNat n h).2]
    · simp only [natToDigitsGo, if_neg h]
      obtain ⟨hv, hne, hall⟩ := ih (n / 10) (Or.inl (by omega))
      refine ⟨?_, by simp, ?_⟩
      · rw [digitsVal_append, hv, (digitChar_toNat (n % 10) (by omega)).1]
        omega
      · simp only [List.all_append, hall, List.all_cons, List.all_nil,
          (digitChar_toNat (n % 10) (by omega)).2, Bool.and_self]

theorem natToDigits_spec (n : Nat) :
    digitsVal (natToDigits n) = n ∧ natToDigits n ≠ [] ∧ (natToDigits n).all isDig = true :=
  natToDigitsGo_spec n n (Or.inl le_rfl)

theorem isDig_not_ws {c : Char} (h : isDig c = true) : c.isWhitespace = false := by
  simp only [Char.isWhitespace]
  have h32 : ¬ c = ' ' := by intro hc; subst hc; exact absurd h (by decide)
  have h9 : ¬ c = '\t' := by intro hc; subst hc; exact absurd h (by decide)
  have h13 : ¬ c = '\r' := by intro hc; subst hc; exact absurd h (by decide)
  have h10 : ¬ c = '\n' := by intro hc; subst hc; exact absurd h (by decide)
  simp [h32, h9, h13, h10]

theorem isDig_ne_dash {c : Char} (h : isDig c = true) : c ≠ '-' := by
  intro hc; subst hc; exact absurd h (by decide)

theorem isDig_ne_plus {c : Char} (h : isDig c = true) : c ≠ '+' := by
  intro hc; subst hc; exact absurd h (by decide)

theorem dropWhileWS_of_digits {l : List Char} (h : l.all isDig = true) :
    l.dropWhile Char.isWhitespace = l := by
  cases l with
  | nil => rfl
  | cons c t =>
    simp only [List.all_cons, Bool.and_eq_true] at h
    simp [List.dropWhile, isDig_not_ws h.1]

theorem stripWS_of_digits {l : List Char} (h : l.all isDig = true) :
    stripWS l = l := by
  unfold stripWS
  rw [dropWhileWS_of_digits h]
  have hrev : l.reverse.all isDig = true := by
    simp only [List.all_eq_true] at h ⊢
    intro c hc
    exact h c (List.mem_reverse.mp hc)
  rw [dropWhileWS_of_digits hrev, List.reverse_reverse]

theorem natCore_of_digits {l : List Char} (hne : l ≠ []) (h : l.all isDig = true) :
    natCore l = some (digitsVal l) := by
  simp [natCore, hne, h]

theorem pyInt_intToStr (n : Int) : pyInt (intToStr n) = some n := by
  cases n with
  | ofNat m =>
    obtain ⟨hv, hne, hall⟩ := natToDigits_spec m
    have hlist : (intToStr (Int.ofNat m)).toList = natToDigits m := rfl
    rw [pyInt, hlist, stripWS_of_digits hall]
    cases hl : natToDigits m with
    | nil => exact absurd hl hne
    | cons c t =>
      have hc : isDig c = true := by
        rw [hl] at hall; simp only [List.all_cons, Bool.and_eq_true] at hall; exact hall.1
      rw [pyIntCore]
      simp only [isDig_ne_dash hc, if_false, isDig_ne_plus hc, if_false]
      rw [← hl, natCore_of_digits hne hall, hv]
      rfl
  | negSucc m =>
    obtain ⟨hv, hne, hall⟩ := natToDigits_spec (m + 1)
    have hlist : (intToStr (Int.negSucc m)).toList = '-' :: natToDigits (m + 1) := rfl
    rw [pyInt, hlist]
    have hstrip : stripWS ('-' :: natToDigits (m + 1)) = '-' :: natToDigits (m + 1) := by
      unfold stripWS
      have h1 : ('-' :: natToDigits (m + 1)).dropWhile Char.isWhitespace
          = '-' :: natToDigits (m + 1) := by
        simp [List.dropWhile]
      rw [h1, List.reverse_cons]
      have h2 : ((natToDigits (m + 1)).reverse ++ ['-']).dropWhile Char.isWhitespace
          = (natToDigits (m + 1)).reverse ++ ['-'] := by
        cases hr : (natToDigits (m + 1)).reverse with
        | nil => simp [List.dropWhile]
        | cons c t =>
          have hc : isDig c = true := by
            have : c ∈ natToDigits (m + 1) := by
              rw [← List.mem_reverse, hr]; exact List.mem_cons_self c t
            simp only [List.all_eq_true] at hall
            exact hall c this
          simp [List.dropWhile, isDig_not_ws hc]
      rw [h2, List.reverse_append, List.reverse_reverse]
      rfl
    rw [hstrip, pyIntCore]
    simp only [if_pos rfl]
    rw [natCore_of_digits hne hall, hv]
    rfl

/-!
Storage layer, from `src/app.py` lines 60-106.  A worksheet is a raw grid
`List (List String)`; row 0 is the header row that `_get_ws` maintains.
Writes of integers render through `intToStr`, reads parse through `pyInt`,
matching what the sheet adapter does with `int` cells and `get_all_values`.
-/

/-- Write value `v` into 0-based column `j` of a row, padding with empty
cells if the row is shorter (a range update on a sheet always lands). -/
def setCell (r : List String) (j : Nat) (v : String) : List String :=
  if j < r.length then r.set j v else r ++ List.replicate (j - r.length) "" ++ [v]

/-- Embedding of `upsert_item` (app.py 60-66): look the name up in column 1
of the whole grid (`col_values(1)`, header included), update cells B/C of the
found row, else append a fresh row. -/
def upsert_item (sheet : List (List String)) (item : String) (total : Int) (note : String) :
    List (List String) :=
  let col1 := sheet.map (fun r => r.getD 0 "")
  match col1.findIdx? (fun v => v = item) with
  | some i => sheet.set i (setCell (setCell (sheet.getD i []) 1 (intToStr total)) 2 note)
  | none => sheet ++ [[item, intToStr total, note]]

/-- Embedding of `add_tx` (app.py 68-70); the timestamp is an input. -/
def add_tx (sheet : List (List String)) (ts : String) (gid : Option String)
    (uid name item : String) (delta : Int) (note : String) : List (List String) :=
  sheet ++ [[ts, gid.getD "", uid, name, item, intToStr delta, note]]

/-- Embedding of `sum_borrowed` (app.py 72-79): fold over all transaction
rows past the header, guarding on row width and the item column, skipping
unparsable deltas. -/
def sum_borrowed (sheet : List (List String)) (item : String) : Int :=
  (sheet.drop 1).foldl
    (fun s r =>
      if r.length ≥ 6 ∧ r.getD 4 "" = item then s + ((pyInt (r.getD 5 "")).getD 0) else s) 0

/-- Embedding of `user_borrowed` (app.py 81-88). -/
def user_borrowed (sheet : List (List String)) (uid item : String) : Int :=
  (sheet.drop 1).foldl
    (fun s r =>
      if r.length ≥ 6 ∧ r.getD 2 "" = uid ∧ r.getD 4 "" = item then
        s + ((pyInt (r.getD 5 "")).getD 0)
      else s) 0

/-- Record built by `get_all_records` for one data row: `dict(zip(header, row))`. -/
def dictZip (hdr row : List String) : List (String × String) := hdr.zip row

/-- Dictionary lookup; with duplicate keys the later pair wins, as in a
Python dict built from `zip`. -/
def dget (d : List (String × String)) (k : String) : Option String :=
  (d.reverse.find? (fun kv => kv.1 = k)).map (fun kv => kv.2)

/-- Python `str(...)` applied to `dict.get` output (`None` prints as "None"). -/
def pyStrOpt : Option String → String
  | some v => v
  | none => "None"

instance {ε α : Type} [DecidableEq ε] [DecidableEq α] : DecidableEq (Except ε α) := fun a b =>
  match a, b with
  | Except.ok x, Except.ok y =>
    if h : x = y then isTrue (by rw [h])
    else isFalse (by intro hc; cases hc; exact h rfl)
  | Except.ok _, Except.error _ => isFalse (by intro hc; cases hc)
  | Except.error _, Except.ok _ => isFalse (by intro hc; cases hc)
  | Except.error x, Except.error y =>
    if h : x = y then isTrue (by rw [h])
    else isFalse (by intro hc; cases hc; exact h rfl)

/-- Item record as `get_item` returns it (app.py 94). -/
structure ItemRec where
  item : String
  total : Int
  note : Option String
deriving DecidableEq, Repr

/-- Scan of the data rows for `get_item`; `Except.error` models the
`int()` call raising on a non-numeric total cell. -/
def get_item_go (hdr : List String) (data : List (List String)) (item : String) :
    Except Unit (Option ItemRec) :=
  match data with
  | [] => Except.ok none
  | row :: rest =>
    let d := dictZip hdr row
    if pyStrOpt (dget d "item") = item then
      match dget d "total" with
      | none => Except.ok (some ⟨item, 0, dget d "note"⟩)
      | some v =>
        match pyInt v with
        | some t => Except.ok (some ⟨item, t, dget d "note"⟩)
        | none => Except.error ()
    else get_item_go hdr rest item

/-- Embedding of `get_item` (app.py 90-95) over the raw items grid. -/
def get_item (sheet : List (List String)) (item : String) : Except Unit (Option ItemRec) :=
  match sheet with
  | [] => Except.ok none
  | hdr :: data => get_item_go hdr data item

/-- Row-by-row computation for `status_all`. -/
def status_all_go (hdr : List String) (data txs : List (List String)) :
    Except Unit (List (String × Int × Int × Int)) :=
  match data with
  | [] => Except.ok []
  | row :: rest =>
    let d := dictZip hdr row
    let item := pyStrOpt (dget d "item")
    match (match dget d "total" with | none => some 0 | some v => pyInt v) with
    | none => Except.error ()
    | some total =>
      let b := sum_borrowed txs item
      match status_all_go hdr rest txs with
      | Except.error e => Except.error e
      | Except.ok tl => Except.ok ((item, total, b, total - b) :: tl)

/-- Embedding of `status_all` (app.py 97-106). -/
def status_all (items txs : List (List String)) :
    Except Unit (List (String × Int × Int × Int)) :=
  match items with
  | [] => Except.ok []
  | hdr :: data => status_all_go hdr data txs

/-- One `tally[k] = tally.get(k, 0) + d` step on an insertion-ordered dict. -/
def updTally (t : List (String × Int)) (k : String) (d : Int) : List (String × Int) :=
  match t with
  | [] => [(k, d)]
  | (k1, v) :: rest => if k1 = k then (k1, v + d) :: rest else (k1, v) :: updTally rest k d

/-- Tally of the `!mine` branch (app.py 229-235): per-item net delta of the
acting user, over all transaction rows past the header. -/
def mine_tally (sheet : List (List String)) (uid : String) : List (String × Int) :=
  (sheet.drop 1).foldl
    (fun t r =>
      if r.length ≥ 6 ∧ r.getD 2 "" = uid then
        updTally t (r.getD 4 "") ((pyInt (r.getD 5 "")).getD 0)
      else t) []

/-- Lines of the `!mine` report (app.py 236): strictly positive nets only. -/
def mine_lines (sheet : List (List String)) (uid : String) : List (String × Int) :=
  (mine_tally sheet uid).filter (fun kv => 0 < kv.2)

/-!
Command handling, from `handle_text` (app.py 134-247).  The handler is split
into `step` (which branch fires and which mutation happens) and `render`
(the exact reply string of that branch, `none` for silence); `handle_text`
composes them.  External inputs (group id, user id, display-name lookup,
clock, `random.choice`, the `ALLOWED_GROUPS` allow-list) enter through `Ctx`.
-/

/-- Persistent sheet state: the items grid and the transactions grid. -/
structure State where
  items : List (List String)
  tx : List (List String)
deriving DecidableEq, Repr

/-- Per-event context supplied by the messaging collaborator. -/
structure Ctx where
  text : String
  gid : Option String
  uid : String
  dispName : Option String
  now : String
  choice : List String → String
  allowed : List String

/-- Membership test `gid in ALLOWED_GROUPS` (a `None` gid is never a member). -/
def inAllowed (gid : Option String) (allowed : List String) : Bool :=
  match gid with
  | some g => allowed.contains g
  | none => false

/-- Note argument: `" ".join(tokens[3:]) if len(tokens) > 3 else ""`. -/
def noteOf (tokens : List String) : String :=
  if tokens.length > 3 then joinSpaces (tokens.drop 3) else ""

/-- Lower-cased stripped text, `lower` in the source. -/
def lowText (ctx : Ctx) : String := strLower (pyStrip ctx.text)

/-- Token list of the stripped text, `tokens` in the source. -/
def tokensOf (ctx : Ctx) : List String := wsTokens (pyStrip ctx.text)

/-- Branch taken by `handle_text`, with the data each reply interpolates. -/
inductive Outcome where
  | blocked
  | yesno (msg : String)
  | pick (msg : String)
  | help
  | gidReply (g : Option String)
  | uidReply (u : String)
  | additemUsage
  | additemOk (item : String) (total : Int)
  | statusNotFound (item : String)
  | statusOne (item : String) (total borrowed avail : Int)
  | statusAll (rows : List (String × Int × Int × Int))
  | borrowUsage
  | bitemNotFound (item : String)
  | invalidQty
  | insufficient (item : String) (avail qty : Int)
  | borrowOk (item : String) (qty : Int) (name : String)
  | nothingToReturn (item : String)
  | returnOk (item : String) (real : Int) (name : String) (hv qty : Int)
  | mine (lines : List (String × Int))
  | unrecognized
  | errored
deriving DecidableEq, Repr

/-- Help text, app.py 23-31. -/
def HELP_MSG : String :=
  "器材租借指令：\n!additem 物品 總數量 [備註]\n!borrow  物品 數量   [備註]\n!return  物品 數量   [備註]\n!status [物品]  → 顯示庫存\n!mine       → 看自己未歸還\n其他：!help"

/-- The `!additem` branch (app.py 176-183). -/
def step_additem (ctx : Ctx) (st : State) : Outcome × State :=
  if (tokensOf ctx).length < 3 ∨ ¬ lstripDashIsdigit ((tokensOf ctx).getD 2 "") then
    (Outcome.additemUsage, st)
  else
    match pyInt ((tokensOf ctx).getD 2 "") with
    | none => (Outcome.errored, st)
    | some total =>
      (Outcome.additemOk ((tokensOf ctx).getD 1 "") total,
        { st with items :=
            (upsert_item st.items ((tokensOf ctx).getD 1 "") total (noteOf (tokensOf ctx))) })

/-- The `!status` branch (app.py 185-196). -/
def step_status (ctx : Ctx) (st : State) : Outcome × State :=
  if (tokensOf ctx).length ≥ 2 then
    match get_item st.items ((tokensOf ctx).getD 1 "") with
    | Except.error _ => (Outcome.errored, st)
    | Except.ok none => (Outcome.statusNotFound ((tokensOf ctx).getD 1 ""), st)
    | Except.ok (some r) =>
      (Outcome.statusOne ((tokensOf ctx).getD 1 "") r.total
        (sum_borrowed st.tx ((tokensOf ctx).getD 1 ""))
        (r.total - sum_borrowed st.tx ((tokensOf ctx).getD 1 "")), st)
  else
    match status_all st.items st.tx with
    | Except.error _ => (Outcome.errored, st)
    | Except.ok rows => (Outcome.statusAll rows, st)

/-- The `!borrow` sub-branch after lookup succeeded (app.py 210-216). -/
def step_borrow_exec (ctx : Ctx) (st : State) (qty : Int) (r : ItemRec) : Outcome × State :=
  if qty ≤ 0 then (Outcome.invalidQty, st)
  else if r.total - sum_borrowed st.tx ((tokensOf ctx).getD 1 "") < qty then
    (Outcome.insufficient ((tokensOf ctx).getD 1 "")
      (r.total - sum_borrowed st.tx ((tokensOf ctx).getD 1 "")) qty, st)
  else
    (Outcome.borrowOk ((tokensOf ctx).getD 1 "") qty (pyOr ctx.dispName ctx.uid),
      { st with tx :=
          (add_tx st.tx ctx.now ctx.gid ctx.uid (pyOr ctx.dispName ctx.uid)
            ((tokensOf ctx).getD 1 "") qty (noteOf (tokensOf ctx))) })

/-- The `!return` sub-branch after lookup succeeded (app.py 217-225). -/
def step_return_exec (ctx : Ctx) (st : State) (qty : Int) : Outcome × State :=
  if qty ≤ 0 then (Outcome.invalidQty, st)
  else if user_borrowed st.tx ctx.uid ((tokensOf ctx).getD 1 "") ≤ 0 then
    (Outcome.nothingToReturn ((tokensOf ctx).getD 1 ""), st)
  else
    (Outcome.returnOk ((tokensOf ctx).getD 1 "")
      (min qty (user_borrowed st.tx ctx.uid ((tokensOf ctx).getD 1 "")))
      (pyOr ctx.dispName ctx.uid)
      (user_borrowed st.tx ctx.uid ((tokensOf ctx).getD 1 "")) qty,
      { st with tx :=
          (add_tx st.tx ctx.now ctx.gid ctx.uid (pyOr ctx.dispName ctx.uid)
            ((tokensOf ctx).getD 1 "")
            (-(min qty (user_borrowed st.tx ctx.uid ((tokensOf ctx).getD 1 ""))))
            (noteOf (tokensOf ctx))) })

/-- The shared `!borrow`/`!return` branch (app.py 198-225). -/
def step_borrow_return (ctx : Ctx) (st : State) : Outcome × State :=
  if (tokensOf ctx).length < 3 ∨ ¬ lstripDashIsdigit ((tokensOf ctx).getD 2 "") then
    (Outcome.borrowUsage, st)
  else
    match pyInt ((tokensOf ctx).getD 2 "") with
    | none => (Outcome.errored, st)
    | some qty =>
      match get_item st.items ((tokensOf ctx).getD 1 "") with
      | Except.error _ => (Outcome.errored, st)
      | Except.ok none => (Outcome.bitemNotFound ((tokensOf ctx).getD 1 ""), st)
      | Except.ok (some r) =>
        if strStartsWith (lowText ctx) "!borrow" then step_borrow_exec ctx st qty r
        else step_return_exec ctx st qty

/-- Embedding of the branch structure of `handle_text` (app.py 134-247).
`Outcome.errored` marks a branch where the Python code raises inside the
`try` block (caught at 246-247, no reply, no further mutation). -/
def step (ctx : Ctx) (st : State) : Outcome × State :=
  if !ctx.allowed.isEmpty && !inAllowed ctx.gid ctx.allowed then (Outcome.blocked, st)
  else if strStartsWith (lowText ctx) "!yesno" then (Outcome.yesno (ctx.choice ["Yes", "No"]), st)
  else if strStartsWith (lowText ctx) "!trun" || strStartsWith (lowText ctx) "!pick" then
    (Outcome.pick
      (if !((tokensOf ctx).drop 1).isEmpty then ctx.choice ((tokensOf ctx).drop 1)
       else "用法：!trun 選項1 選項2 ..."), st)
  else if strStartsWith (lowText ctx) "!help" then (Outcome.help, st)
  else if strStartsWith (lowText ctx) "!gid" then (Outcome.gidReply ctx.gid, st)
  else if strStartsWith (lowText ctx) "!uid" then (Outcome.uidReply ctx.uid, st)
  else if strStartsWith (lowText ctx) "!additem" then step_additem ctx st
  else if strStartsWith (lowText ctx) "!status" then step_status ctx st
  else if strStartsWith (lowText ctx) "!borrow" || strStartsWith (lowText ctx) "!return" then
    step_borrow_return ctx st
  else if strStartsWith (lowText ctx) "!mine" then
    (Outcome.mine (mine_lines st.tx ctx.uid), st)
  else (Outcome.unrecognized, st)

/-- Reply string of each branch, exactly the f-strings of the source;
`none` is silence (unrecognized input, blocked group, or a caught raise). -/
def render : Outcome → Option String
  | Outcome.blocked => none
  | Outcome.yesno m => some m
  | Outcome.pick m => some m
  | Outcome.help => some HELP_MSG
  | Outcome.gidReply g => some ("groupId: " ++ pyOr g "（非群組）")
  | Outcome.uidReply u => some ("userId: " ++ u)
  | Outcome.additemUsage => some "用法：!additem 物品 總數量 [備註]"
  | Outcome.additemOk i t => some ("設定完成：" ++ i ++ " 總數量 = " ++ intToStr t)
  | Outcome.statusNotFound i => some ("尚未建立物品：" ++ i ++ "（用 !additem 建立）")
  | Outcome.statusOne i t b a =>
    some (i ++ "：總量 " ++ intToStr t ++ "、已借 " ++ intToStr b ++ "、可借 " ++ intToStr a)
  | Outcome.statusAll rows =>
    some ("目前庫存：\n" ++
      (if rows.isEmpty then "（尚無物品）"
       else joinNL (rows.map (fun x =>
         x.1 ++ "：" ++ intToStr x.2.1 ++ " / 借" ++ intToStr x.2.2.1 ++ " / 可" ++ intToStr x.2.2.2))))
  | Outcome.borrowUsage => some "用法：!borrow 物品 數量 [備註]；!return 同上"
  | Outcome.bitemNotFound i => some ("尚未建立物品：" ++ i ++ "（先用 !additem）")
  | Outcome.invalidQty => some "數量需為正整數。"
  | Outcome.insufficient i a q =>
    some ("可借不足：" ++ i ++ " 剩 " ++ intToStr a ++ "，你要 " ++ intToStr q)
  | Outcome.borrowOk i q n => some ("借出成功：" ++ i ++ " x " ++ intToStr q ++ "（" ++ n ++ "）")
  | Outcome.nothingToReturn i => some ("你目前沒有借 " ++ i ++ "。")
  | Outcome.returnOk i real n hv q =>
    some ("歸還成功：" ++ i ++ " x " ++ intToStr real ++ "（" ++ n ++ "）" ++
      (if real = q then "" else "（你手上只有 " ++ intToStr hv ++ "，已自動調整）"))
  | Outcome.mine ls =>
    some ("你未歸還：\n" ++
      (if ls.isEmpty then "（無）"
       else joinNL (ls.map (fun kv => kv.1 ++ " x " ++ intToStr kv.2))))
  | Outcome.unrecognized => none
  | Outcome.errored => none

/-- Reply plus new state for one inbound text event. -/
def handle_text (ctx : Ctx) (st : State) : Option String × State :=
  (render (step ctx st).1, (step ctx st).2)

/-!
Claim-side view of the inventory folds (C5): the sum, over exactly the rows
whose item (and, for the user variant, user) field matches, of the
integer-parsable deltas, unparsable or missing deltas contributing 0.
-/

/-- Sum of parsable deltas of the data rows whose item field is `item`. -/
def spec_item_delta_sum (sheet : List (List String)) (item : String) : Int :=
  ((sheet.drop 1).map
    (fun r => if r[4]? = some item then ((r[5]?).bind pyInt).getD 0 else 0)).sum

/-- Same sum restricted to rows whose user field is `uid` as well. -/
def spec_user_delta_sum (sheet : List (List String)) (uid item : String) : Int :=
  ((sheet.drop 1).map
    (fun r =>
      if r[2]? = some uid ∧ r[4]? = some item then ((r[5]?).bind pyInt).getD 0 else 0)).sum

theorem sum_borrowed_eq_sum (sheet : List (List String)) (item : String) :
    sum_borrowed sheet item
      = ((sheet.drop 1).map
          (fun r =>
            if r.length ≥ 6 ∧ r.getD 4 "" = item then (pyInt (r.getD 5 "")).getD 0 else 0)).sum := by
  unfold sum_borrowed
  have H : ∀ (l : List (List String)) (s : Int),
      l.foldl
        (fun s r =>
          if r.length ≥ 6 ∧ r.getD 4 "" = item then s + (pyInt (r.getD 5 "")).getD 0 else s) s
        = s + (l.map
            (fun r =>
              if r.length ≥ 6 ∧ r.getD 4 "" = item then (pyInt (r.getD 5 "")).getD 0 else 0)).sum := by
    intro l
    induction l with
    | nil => intro s; simp
    | cons a t ih =>
      intro s
      simp only [List.foldl_cons, List.map_cons, List.sum_cons]
      by_cases h : a.length ≥ 6 ∧ a.getD 4 "" = item
      · rw [if_pos h, if_pos h, ih]; ring
      · rw [if_neg h, if_neg h, ih]; ring
  rw [H]; simp

theorem user_borrowed_eq_sum (sheet : List (List String)) (uid item : String) :
    user_borrowed sheet uid item
      = ((sheet.drop 1).map
          (fun r =>
            if r.length ≥ 6 ∧ r.getD 2 "" = uid ∧ r.getD 4 "" = item then
              (pyInt (r.getD 5 "")).getD 0
            else 0)).sum := by
  unfold user_borrowed
  have H : ∀ (l : List (List String)) (s : Int),
      l.foldl
        (fun s r =>
          if r.length ≥ 6 ∧ r.getD 2 "" = uid ∧ r.getD 4 "" = item then
            s + (pyInt (r.getD 5 "")).getD 0
          else s) s
        = s + (l.map
            (fun r =>
              if r.length ≥ 6 ∧ r.getD 2 "" = uid ∧ r.getD 4 "" = item then
                (pyInt (r.getD 5 "")).getD 0
              else 0)).sum := by
    intro l
    induction l with
    | nil => intro s; simp
    | cons a t ih =>
      intro s
      simp only [List.foldl_cons, List.map_cons, List.sum_cons]
      by_cases h : a.length ≥ 6 ∧ a.getD 2 "" = uid ∧ a.getD 4 "" = item
      · rw [if_pos h, if_pos h, ih]; ring
      · rw [if_neg h, if_neg h, ih]; ring
  rw [H]; simp

theorem row_item_case (r : List String) (item : String) :
    (if r.length ≥ 6 ∧ r.getD 4 "" = item then (pyInt (r.getD 5 "")).getD 0 else 0)
      = (if r[4]? = some item then ((r[5]?).bind pyInt).getD 0 else 0) := by
  rcases r with _ | ⟨a, _ | ⟨b, _ | ⟨c, _ | ⟨d, _ | ⟨e, _ | ⟨f, tl⟩⟩⟩⟩⟩⟩ <;>
    simp [List.getD]

theorem row_user_case (r : List String) (uid item : String) :
    (if r.length ≥ 6 ∧ r.getD 2 "" = uid ∧ r.getD 4 "" = item then
        (pyInt (r.getD 5 "")).getD 0 else 0)
      = (if r[2]? = some uid ∧ r[4]? = some item then ((r[5]?).bind pyInt).getD 0 else 0) := by
  rcases r with _ | ⟨a, _ | ⟨b, _ | ⟨c, _ | ⟨d, _ | ⟨e, _ | ⟨f, tl⟩⟩⟩⟩⟩⟩ <;>
    simp [List.getD]

/-- C5: on every ledger, `sum_borrowed` equals the sum of the
integer-parsable deltas of exactly the rows whose item field matches, and
`user_borrowed` equals the same sum further restricted to matching user
rows; unparsable deltas count as 0 and the folds are total functions. -/
theorem claim_C5_fold_skips_malformed (sheet : List (List String)) (uid item : String) :
    sum_borrowed sheet item = spec_item_delta_sum sheet item ∧
    user_borrowed sheet uid item = spec_user_delta_sum sheet uid item := by
  constructor
  · rw [sum_borrowed_eq_sum, spec_item_delta_sum]
    congr 1
    exact List.map_congr_left (fun r _ => row_item_case r item)
  · rw [user_borrowed_eq_sum, spec_user_delta_sum]
    congr 1
    exact List.map_congr_left (fun r _ => row_user_case r uid item)

/-!
Group-blindness (C10): the folds read only row width and columns 2, 4, 5,
never the group column 1, so editing any row's group cell changes nothing.
-/

theorem set1_fields (r : List String) (g : String) :
    (r.set 1 g).length = r.length ∧ (r.set 1 g).getD 2 "" = r.getD 2 "" ∧
    (r.set 1 g).getD 4 "" = r.getD 4 "" ∧ (r.set 1 g).getD 5 "" = r.getD 5 "" := by
  rcases r with _ | ⟨a, _ | ⟨b, t⟩⟩ <;> simp [List.getD]

theorem forall2_drop1 {α : Type} {R : α → α → Prop} {l l2 : List α}
    (h : List.Forall₂ R l l2) : List.Forall₂ R (l.drop 1) (l2.drop 1) := by
  cases h with
  | nil => exact List.Forall₂.nil
  | cons hr ht => simpa using ht

/-- C10: altering the group_id cell of any transactions (relating the two
grids row-by-row by `r2 = r.set 1 g`) changes neither `sum_borrowed` nor
`user_borrowed` nor the `!mine` report: availability and outstanding
balances are computed with no per-group partitioning. -/
theorem claim_C10_group_blind (txs txs2 : List (List String))
    (h : List.Forall₂ (fun r r2 => ∃ g, r2 = r.set 1 g) txs txs2) (uid item : String) :
    sum_borrowed txs2 item = sum_borrowed txs item ∧
    user_borrowed txs2 uid item = user_borrowed txs uid item ∧
    mine_lines txs2 uid = mine_lines txs uid := by
  have hd := forall2_drop1 h
  have Hsum : ∀ (l l2 : List (List String)),
      List.Forall₂ (fun r r2 => ∃ g, r2 = r.set 1 g) l l2 → ∀ s : Int,
      l2.foldl
        (fun s r =>
          if r.length ≥ 6 ∧ r.getD 4 "" = item then s + (pyInt (r.getD 5 "")).getD 0 else s) s
        = l.foldl
        (fun s r =>
          if r.length ≥ 6 ∧ r.getD 4 "" = item then s + (pyInt (r.getD 5 "")).getD 0 else s) s := by
    intro l l2 h12
    induction h12 with
    | nil => intro s; rfl
    | cons hr _ ih =>
      intro s
      obtain ⟨g, rfl⟩ := hr
      simp only [List.foldl_cons]
      obtain ⟨hlen, h2, h4, h5⟩ := set1_fields _ g
      rw [hlen, h4, h5]
      exact ih _
  have Huser : ∀ (l l2 : List (List String)),
      List.Forall₂ (fun r r2 => ∃ g, r2 = r.set 1 g) l l2 → ∀ s : Int,
      l2.foldl
        (fun s r =>
          if r.length ≥ 6 ∧ r.getD 2 "" = uid ∧ r.getD 4 "" = item then
            s + (pyInt (r.getD 5 "")).getD 0
          else s) s
        = l.foldl
        (fun s r =>
          if r.length ≥ 6 ∧ r.getD 2 "" = uid ∧ r.getD 4 "" = item then
            s + (pyInt (r.getD 5 "")).getD 0
          else s) s := by
    intro l l2 h12
    induction h12 with
    | nil => intro s; rfl
    | cons hr _ ih =>
      intro s
      obtain ⟨g, rfl⟩ := hr
      simp only [List.foldl_cons]
      obtain ⟨hlen, h2, h4, h5⟩ := set1_fields _ g
      rw [hlen, h2, h4, h5]
      exact ih _
  have Htally : ∀ (l l2 : List (List String)),
      List.Forall₂ (fun r r2 => ∃ g, r2 = r.set 1 g) l l2 → ∀ t : List (String × Int),
      l2.foldl
        (fun t r =>
          if r.length ≥ 6 ∧ r.getD 2 "" = uid then
            updTally t (r.getD 4 "") ((pyInt (r.getD 5 "")).getD 0)
          else t) t
        = l.foldl
        (fun t r =>
          if r.length ≥ 6 ∧ r.getD 2 "" = uid then
            updTally t (r.getD 4 "") ((pyInt (r.getD 5 "")).getD 0)
          else t) t := by
    intro l l2 h12
    induction h12 with
    | nil => intro t; rfl
    | cons hr _ ih =>
      intro t
      obtain ⟨g, rfl⟩ := hr
      simp only [List.foldl_cons]
      obtain ⟨hlen, h2, h4, h5⟩ := set1_fields _ g
      rw [hlen, h2, h4, h5]
      exact ih _
  refine ⟨Hsum _ _ hd 0, Huser _ _ hd 0, ?_⟩
  unfold mine_lines mine_tally
  rw [Htally _ _ hd []]

/-!
Dictionary lemmas for the `!mine` tally (C9): the tally is an
insertion-ordered map from item to the net delta of the acting user.
-/

/-- Lookup in the tally, `tally.get(k)` of the Python dict. -/
def tLookup (t : List (String × Int)) (k : String) : Option Int :=
  (t.find? (fun kv => kv.1 = k)).map (fun kv => kv.2)

/-- Keys of the tally in insertion order. -/
def tKeys (t : List (String × Int)) : List String := t.map Prod.fst

/-- Net delta the `!mine` fold accumulates for user `uid` and item `k`. -/
def mineContrib (uid k : String) (rows : List (List String)) : Int :=
  (rows.map
    (fun r =>
      if r.length ≥ 6 ∧ r.getD 2 "" = uid ∧ r.getD 4 "" = k then
        (pyInt (r.getD 5 "")).getD 0
      else 0)).sum

/-- Whether some row hits the tally key `k` for user `uid`. -/
def mineHasK (uid k : String) (rows : List (List String)) : Bool :=
  rows.any (fun r => decide (r.length ≥ 6 ∧ r.getD 2 "" = uid ∧ r.getD 4 "" = k))

theorem tLookup_nil (k : String) : tLookup [] k = none := rfl

theorem tLookup_cons (k1 : String) (v : Int) (rest : List (String × Int)) (k : String) :
    tLookup ((k1, v) :: rest) k = if k1 = k then some v else tLookup rest k := by
  by_cases h : k1 = k
  · rw [if_pos h]
    simp only [tLookup]
    rw [List.find?_cons_of_pos _ (by simp [h])]
    rfl
  · rw [if_neg h]
    simp only [tLookup]
    rw [List.find?_cons_of_neg _ (by simp [h])]

theorem tLookup_upd_self (t : List (String × Int)) (k : String) (d : Int) :
    tLookup (updTally t k d) k = some ((tLookup t k).getD 0 + d) := by
  induction t with
  | nil =>
    simp only [updTally]
    rw [tLookup_cons, if_pos rfl]
    simp [tLookup_nil]
  | cons kv rest ih =>
    obtain ⟨k1, v⟩ := kv
    by_cases h : k1 = k
    · simp only [updTally, if_pos h]
      rw [tLookup_cons, if_pos h, tLookup_cons, if_pos h]
      simp
    · simp only [updTally, if_neg h]
      rw [tLookup_cons, if_neg h, tLookup_cons, if_neg h]
      exact ih

theorem tLookup_upd_ne (t : List (String × Int)) (k k2 : String) (d : Int) (h : k2 ≠ k) :
    tLookup (updTally t k d) k2 = tLookup t k2 := by
  induction t with
  | nil =>
    simp only [updTally]
    rw [tLookup_cons, if_neg (fun hc => h hc.symm)]
  | cons kv rest ih =>
    obtain ⟨k1, v⟩ := kv
    by_cases h1 : k1 = k
    · simp only [updTally, if_pos h1]
      rw [tLookup_cons, tLookup_cons]
      have hne : ¬ k1 = k2 := fun hc => h (h1 ▸ hc.symm ▸ rfl)
      rw [if_neg hne, if_neg hne]
    · simp only [updTally, if_neg h1]
      rw [tLookup_cons, tLookup_cons]
      by_cases h2 : k1 = k2
      · rw [if_pos h2, if_pos h2]
      · rw [if_neg h2, if_neg h2]
        exact ih

theorem tLookup_none_iff (t : List (String × Int)) (k : String) :
    tLookup t k = none ↔ k ∉ tKeys t := by
  induction t with
  | nil => simp [tLookup_nil, tKeys]
  | cons kv rest ih =>
    obtain ⟨k1, v⟩ := kv
    rw [tLookup_cons]
    by_cases h : k1 = k
    · subst h
      simp [tKeys]
    · rw [if_neg h]
      simp only [tKeys, List.map_cons, List.mem_cons, not_or] at ih ⊢
      constructor
      · intro hn
        exact ⟨fun hc => h hc.symm, ih.mp hn⟩
      · intro hn
        exact ih.mpr hn.2

theorem tKeys_upd (t : List (String × Int)) (k : String) (d : Int) :
    tKeys (updTally t k d) = if tLookup t k = none then tKeys t ++ [k] else tKeys t := by
  induction t with
  | nil => simp [updTally, tKeys, tLookup_nil]
  | cons kv rest ih =>
    obtain ⟨k1, v⟩ := kv
    rw [tLookup_cons]
    by_cases h : k1 = k
    · simp only [updTally, if_pos h, tKeys, List.map_cons]
      rw [if_neg (by simp)]
    · simp only [updTally, if_neg h, tKeys, List.map_cons]
      simp only [tKeys] at ih
      by_cases h0 : tLookup rest k = none
      · rw [if_pos h0] at ih
        rw [ih, if_pos h0]
        simp
      · rw [if_neg h0] at ih
        rw [ih, if_neg h0]

theorem nodup_upd (t : List (String × Int)) (k : String) (d : Int)
    (h : (tKeys t).Nodup) : (tKeys (updTally t k d)).Nodup := by
  rw [tKeys_upd]
  by_cases h0 : tLookup t k = none
  · rw [if_pos h0]
    have hk : k ∉ tKeys t := (tLookup_none_iff t k).mp h0
    simp only [List.nodup_append, List.nodup_cons, List.not_mem_nil, not_false_iff,
      List.nodup_nil, and_true, true_and]
    refine ⟨h, ?_⟩
    intro a ha hb
    simp only [List.mem_singleton] at hb
    subst hb
    exact hk ha
  · rw [if_neg h0]
    exact h

theorem mem_iff_tLookup (t : List (String × Int)) (h : (tKeys t).Nodup) (k : String) (v : Int) :
    (k, v) ∈ t ↔ tLookup t k = some v := by
  induction t with
  | nil => simp [tLookup_nil]
  | cons kv rest ih =>
    obtain ⟨k1, v1⟩ := kv
    rw [show tKeys ((k1, v1) :: rest) = k1 :: tKeys rest from rfl] at h
    obtain ⟨hk1, hrest⟩ := List.nodup_cons.mp h
    have ihr := ih hrest
    rw [tLookup_cons]
    by_cases hk : k1 = k
    · subst hk
      rw [if_pos rfl, List.mem_cons]
      constructor
      · rintro (heq | hm)
        · cases heq; rfl
        · exfalso
          exact hk1 (by simpa [tKeys] using List.mem_map_of_mem Prod.fst hm)
      · intro hl
        left
        simp only [Option.some_inj] at hl
        rw [hl]
    · rw [if_neg hk, List.mem_cons]
      constructor
      · rintro (heq | hm)
        · exact absurd (congrArg Prod.fst heq).symm hk
        · exact ihr.mp hm
      · intro hl
        exact Or.inr (ihr.mpr hl)

theorem tLookup_mine_fold (uid k : String) :
    ∀ (rows : List (List String)) (t : List (String × Int)),
      tLookup
        (rows.foldl
          (fun t r =>
            if r.length ≥ 6 ∧ r.getD 2 "" = uid then
              updTally t (r.getD 4 "") ((pyInt (r.getD 5 "")).getD 0)
            else t) t) k
        = (if ((tLookup t k).isSome || mineHasK uid k rows) = true
           then some ((tLookup t k).getD 0 + mineContrib uid k rows) else none) := by
  intro rows
  induction rows with
  | nil =>
    intro t
    simp only [List.foldl_nil, mineHasK, List.any_nil, Bool.or_false, mineContrib,
      List.map_nil, List.sum_nil, add_zero]
    cases htk : tLookup t k <;> simp
  | cons r rows ih =>
    intro t
    simp only [List.foldl_cons]
    by_cases hg : r.length ≥ 6 ∧ r.getD 2 "" = uid
    · rw [if_pos hg]
      by_cases hk : r.getD 4 "" = k
      · rw [hk, ih, tLookup_upd_self]
        have hhk : mineHasK uid k (r :: rows) = true := by
          simp only [mineHasK, List.any_cons, Bool.or_eq_true, decide_eq_true_eq]
          exact Or.inl ⟨hg.1, hg.2, hk⟩
        have hck : mineContrib uid k (r :: rows)
            = (pyInt (r.getD 5 "")).getD 0 + mineContrib uid k rows := by
          simp only [mineContrib, List.map_cons, List.sum_cons]
          rw [if_pos ⟨hg.1, hg.2, hk⟩]
        rw [hhk, hck]
        simp only [Option.isSome_some, Bool.true_or, if_pos rfl, Option.getD_some,
          Bool.or_true, add_assoc]
      · rw [ih, tLookup_upd_ne _ _ _ _ (fun hc => hk hc.symm)]
        have hhk : mineHasK uid k (r :: rows) = mineHasK uid k rows := by
          simp only [mineHasK, List.any_cons]
          rw [show (decide (r.length ≥ 6 ∧ r.getD 2 "" = uid ∧ r.getD 4 "" = k)) = false by
            simp only [decide_eq_false_iff_not]
            exact fun hc => hk hc.2.2]
          simp
        have hck : mineContrib uid k (r :: rows) = mineContrib uid k rows := by
          simp only [mineContrib, List.map_cons, List.sum_cons]
          rw [if_neg (fun hc => hk hc.2.2)]
          simp
        rw [hhk, hck]
    · rw [if_neg hg, ih]
      have hhk : mineHasK uid k (r :: rows) = mineHasK uid k rows := by
        simp only [mineHasK, List.any_cons]
        rw [show (decide (r.length ≥ 6 ∧ r.getD 2 "" = uid ∧ r.getD 4 "" = k)) = false by
          simp only [decide_eq_false_iff_not]
          exact fun hc => hg ⟨hc.1, hc.2.1⟩]
        simp
      have hck : mineContrib uid k (r :: rows) = mineContrib uid k rows := by
        simp only [mineContrib, List.map_cons, List.sum_cons]
        rw [if_neg (fun hc => hg ⟨hc.1, hc.2.1⟩)]
        simp
      rw [hhk, hck]

theorem nodup_mine_fold (uid : String) :
    ∀ (rows : List (List String)) (t : List (String × Int)), (tKeys t).Nodup →
      (tKeys
        (rows.foldl
          (fun t r =>
            if r.length ≥ 6 ∧ r.getD 2 "" = uid then
              updTally t (r.getD 4 "") ((pyInt (r.getD 5 "")).getD 0)
            else t) t)).Nodup := by
  intro rows
  induction rows with
  | nil => intro t ht; simpa using ht
  | cons r rows ih =>
    intro t ht
    simp only [List.foldl_cons]
    by_cases hg : r.length ≥ 6 ∧ r.getD 2 "" = uid
    · rw [if_pos hg]
      exact ih _ (nodup_upd _ _ _ ht)
    · rw [if_neg hg]
      exact ih _ ht

theorem mineContrib_of_not_hasK (uid k : String) (rows : List (List String))
    (h : mineHasK uid k rows = false) : mineContrib uid k rows = 0 := by
  induction rows with
  | nil => rfl
  | cons r rows ih =>
    simp only [mineHasK, List.any_cons, Bool.or_eq_false_iff] at h
    simp only [mineContrib, List.map_cons, List.sum_cons]
    rw [if_neg (by simpa using h.1)]
    have := ih (by simp only [mineHasK]; exact h.2)
    simp only [mineContrib] at this
    rw [this]
    simp

theorem user_borrowed_eq_contrib (sheet : List (List String)) (uid k : String) :
    user_borrowed sheet uid k = mineContrib uid k (sheet.drop 1) := by
  rw [user_borrowed_eq_sum]
  rfl

/-- C9: the `!mine` report lists exactly the items whose net summed delta
over the acting user's transactions is strictly positive, each paired with
that net (`user_borrowed`); zero or negative nets are omitted. -/
theorem claim_C9_mine_positive_net (sheet : List (List String)) (uid it : String) (q : Int) :
    (it, q) ∈ mine_lines sheet uid ↔ q = user_borrowed sheet uid it ∧ 0 < q := by
  have hnodup : (tKeys (mine_tally sheet uid)).Nodup := by
    unfold mine_tally
    exact nodup_mine_fold uid (sheet.drop 1) [] (by simp [tKeys])
  have hlk : tLookup (mine_tally sheet uid) it
      = (if mineHasK uid it (sheet.drop 1) = true
         then some (mineContrib uid it (sheet.drop 1)) else none) := by
    unfold mine_tally
    rw [tLookup_mine_fold]
    simp [tLookup]
  constructor
  · intro hm
    obtain ⟨hmem, hq⟩ := List.mem_filter.mp hm
    have hpos : 0 < q := by simpa using hq
    have hsome : tLookup (mine_tally sheet uid) it = some q :=
      (mem_iff_tLookup _ hnodup _ _).mp hmem
    rw [hlk] at hsome
    by_cases hhk : mineHasK uid it (sheet.drop 1) = true
    · rw [if_pos hhk] at hsome
      simp only [Option.some_inj] at hsome
      exact ⟨by rw [user_borrowed_eq_contrib, ← hsome], hpos⟩
    · rw [if_neg hhk] at hsome
      exact absurd hsome (by simp)
  · rintro ⟨hqv, hpos⟩
    have hcon : mineContrib uid it (sheet.drop 1) = q := by
      rw [← user_borrowed_eq_contrib, ← hqv]
    have hhk : mineHasK uid it (sheet.drop 1) = true := by
      cases hv : mineHasK uid it (sheet.drop 1) with
      | true => rfl
      | false =>
        exfalso
        have := mineContrib_of_not_hasK uid it (sheet.drop 1) hv
        rw [hcon] at this
        omega
    have hsome : tLookup (mine_tally sheet uid) it = some q := by
      rw [hlk, if_pos hhk, hcon]
    have hmem : (it, q) ∈ mine_tally sheet uid :=
      (mem_iff_tLookup _ hnodup _ _).mpr hsome
    exact List.mem_filter.mpr ⟨hmem, by simpa using hpos⟩

/-!
Rejection outcomes (C3): the structured kinds MalformedArgs (the two usage
replies), ItemNotFound (status and borrow/return variants), InvalidQuantity,
InsufficientStock and NothingToReturn.
-/

/-- Whether an outcome is one of the rejection kinds of spec section 7. -/
def isRejection : Outcome → Bool
  | Outcome.additemUsage => true
  | Outcome.borrowUsage => true
  | Outcome.statusNotFound _ => true
  | Outcome.bitemNotFound _ => true
  | Outcome.invalidQty => true
  | Outcome.insufficient _ _ _ => true
  | Outcome.nothingToReturn _ => true
  | _ => false

/-- Whether an outcome is one of the three that mutate the ledger. -/
def isMutation : Outcome → Bool
  | Outcome.additemOk _ _ => true
  | Outcome.borrowOk _ _ _ => true
  | Outcome.returnOk _ _ _ _ _ => true
  | _ => false

theorem step_additem_cases (ctx : Ctx) (st : State) :
    (step_additem ctx st).2 = st ∨ isMutation (step_additem ctx st).1 = true := by
  unfold step_additem
  repeat' split
  all_goals first | exact Or.inl rfl | exact Or.inr rfl

theorem step_status_cases (ctx : Ctx) (st : State) :
    (step_status ctx st).2 = st ∨ isMutation (step_status ctx st).1 = true := by
  unfold step_status
  repeat' split
  all_goals exact Or.inl rfl

theorem step_borrow_exec_cases (ctx : Ctx) (st : State) (qty : Int) (r : ItemRec) :
    (step_borrow_exec ctx st qty r).2 = st ∨ isMutation (step_borrow_exec ctx st qty r).1 = true := by
  unfold step_borrow_exec
  repeat' split
  all_goals first | exact Or.inl rfl | exact Or.inr rfl

theorem step_return_exec_cases (ctx : Ctx) (st : State) (qty : Int) :
    (step_return_exec ctx st qty).2 = st ∨ isMutation (step_return_exec ctx st qty).1 = true := by
  unfold step_return_exec
  repeat' split
  all_goals first | exact Or.inl rfl | exact Or.inr rfl

set_option maxHeartbeats 1000000 in
theorem step_borrow_return_cases (ctx : Ctx) (st : State) :
    (step_borrow_return ctx st).2 = st ∨ isMutation (step_borrow_return ctx st).1 = true := by
  unfold step_borrow_return
  repeat' split
  all_goals first
    | exact Or.inl rfl
    | exact step_borrow_exec_cases ctx st _ _
    | exact step_return_exec_cases ctx st _

set_option maxHeartbeats 1000000 in
theorem step_cases (ctx : Ctx) (st : State) :
    (step ctx st).2 = st ∨ isMutation (step ctx st).1 = true := by
  unfold step
  repeat' split
  all_goals first
    | exact Or.inl rfl
    | exact step_additem_cases ctx st
    | exact step_status_cases ctx st
    | exact step_borrow_return_cases ctx st

theorem mutation_not_rejection (o : Outcome) (h : isMutation o = true) :
    isRejection o = false := by
  cases o <;> simp_all [isMutation, isRejection]

/-- C3: every rejected command (outcome InvalidQuantity, InsufficientStock,
ItemNotFound, NothingToReturn, or MalformedArgs) leaves the persisted state,
items and transactions alike, exactly as it was. -/
theorem claim_C3_rejection_leaves_no_trace (ctx : Ctx) (st : State)
    (h : isRejection (step ctx st).1 = true) : (step ctx st).2 = st := by
  rcases step_cases ctx st with h0 | h1
  · exact h0
  · rw [mutation_not_rejection _ h1] at h
    cases h

theorem step_additem_no_usage (ctx : Ctx) (st : State)
    (hlen : ¬ ((tokensOf ctx).length < 3 ∨
      ¬ lstripDashIsdigit ((tokensOf ctx).getD 2 "") = true)) :
    (step_additem ctx st).1 ≠ Outcome.additemUsage ∧
      (step_additem ctx st).1 ≠ Outcome.borrowUsage := by
  unfold step_additem
  repeat' split
  all_goals first
    | exact absurd (by assumption) hlen
    | (constructor <;> simp)

theorem step_status_no_usage (ctx : Ctx) (st : State) :
    (step_status ctx st).1 ≠ Outcome.additemUsage ∧
      (step_status ctx st).1 ≠ Outcome.borrowUsage := by
  unfold step_status
  repeat' split
  all_goals constructor <;> simp

theorem step_borrow_exec_no_usage (ctx : Ctx) (st : State) (qty : Int) (r : ItemRec) :
    (step_borrow_exec ctx st qty r).1 ≠ Outcome.additemUsage ∧
      (step_borrow_exec ctx st qty r).1 ≠ Outcome.borrowUsage := by
  unfold step_borrow_exec
  repeat' split
  all_goals constructor <;> simp

theorem step_return_exec_no_usage (ctx : Ctx) (st : State) (qty : Int) :
    (step_return_exec ctx st qty).1 ≠ Outcome.additemUsage ∧
      (step_return_exec ctx st qty).1 ≠ Outcome.borrowUsage := by
  unfold step_return_exec
  repeat' split
  all_goals constructor <;> simp

set_option maxHeartbeats 1000000 in
theorem step_borrow_return_no_usage (ctx : Ctx) (st : State)
    (hlen : ¬ ((tokensOf ctx).length < 3 ∨
      ¬ lstripDashIsdigit ((tokensOf ctx).getD 2 "") = true)) :
    (step_borrow_return ctx st).1 ≠ Outcome.additemUsage ∧
      (step_borrow_return ctx st).1 ≠ Outcome.borrowUsage := by
  unfold step_borrow_return
  repeat' split
  all_goals first
    | exact absurd (by assumption) hlen
    | exact step_borrow_exec_no_usage ctx st _ _
    | exact step_return_exec_no_usage ctx st _
    | (constructor <;> simp)

set_option maxHeartbeats 1000000 in
theorem step_usage_cond (ctx : Ctx) (st : State)
    (hlen : ¬ ((tokensOf ctx).length < 3 ∨
      ¬ lstripDashIsdigit ((tokensOf ctx).getD 2 "") = true)) :
    (step ctx st).1 ≠ Outcome.additemUsage ∧ (step ctx st).1 ≠ Outcome.borrowUsage := by
  unfold step
  repeat' split
  all_goals first
    | exact step_additem_no_usage ctx st hlen
    | exact step_status_no_usage ctx st
    | exact step_borrow_return_no_usage ctx st hlen
    | (constructor <;> simp)

/-!
Sign handling of the quantity recognition test (C6, C7).
-/

theorem dropWhileDash_of_digits {l : List Char} (hne : l ≠ []) (hall : l.all isDig = true) :
    l.dropWhile (fun c => c = '-') = l := by
  cases l with
  | nil => exact absurd rfl hne
  | cons c t =>
    simp only [List.all_cons, Bool.and_eq_true] at hall
    simp [List.dropWhile, isDig_ne_dash hall.1]

theorem lstripDashIsdigit_of_shape (tok : String) (ds : List Char) (hne : ds ≠ [])
    (hall : ds.all isDig = true) (hshape : tok.toList = ds ∨ tok.toList = '-' :: ds) :
    lstripDashIsdigit tok = true := by
  unfold lstripDashIsdigit
  rcases hshape with h | h <;> rw [h]
  · rw [dropWhileDash_of_digits hne hall]
    simp only [Bool.and_eq_true, Bool.not_eq_true']
    exact ⟨by simpa using hne, hall⟩
  · have hstep : List.dropWhile (fun c => decide (c = '-')) ('-' :: ds)
        = List.dropWhile (fun c => decide (c = '-')) ds := by
      simp [List.dropWhile]
    rw [show (fun c => decide (c = '-')) = (fun c : Char => decide (c = '-')) from rfl]
    rw [hstep, dropWhileDash_of_digits hne hall]
    simp only [Bool.and_eq_true, Bool.not_eq_true']
    exact ⟨by simpa using hne, hall⟩

theorem pyInt_of_digits {ds : List Char} (hne : ds ≠ []) (hall : ds.all isDig = true)
    (tok : String) (h : tok.toList = ds) : pyInt tok = some ((digitsVal ds : Nat) : Int) := by
  unfold pyInt
  rw [h, stripWS_of_digits hall]
  cases ds with
  | nil => exact absurd rfl hne
  | cons c cs =>
    have hc : isDig c = true := by
      simp only [List.all_cons, Bool.and_eq_true] at hall
      exact hall.1
    rw [pyIntCore]
    rw [if_neg (isDig_ne_dash hc), if_neg (isDig_ne_plus hc)]
    rw [natCore_of_digits (by simp) hall]
    rfl

theorem recognition_nonneg (tok : String) (hrec : lstripDashIsdigit tok = true)
    (hhead : tok.toList.head? ≠ some '-') :
    ∃ n : Nat, pyInt tok = some (n : Int) := by
  cases hl : tok.toList with
  | nil =>
    exfalso
    unfold lstripDashIsdigit at hrec
    rw [hl] at hrec
    simp at hrec
  | cons c cs =>
    have hcd : ¬ c = '-' := by
      intro hc
      apply hhead
      rw [hl, hc]
      rfl
    have hall : (c :: cs).all isDig = true := by
      unfold lstripDashIsdigit at hrec
      rw [hl] at hrec
      rw [show List.dropWhile (fun c => decide (c = '-')) (c :: cs) = c :: cs by
        simp [List.dropWhile, hcd]] at hrec
      simp only [Bool.and_eq_true] at hrec
      exact hrec.2
    exact ⟨digitsVal (c :: cs), pyInt_of_digits (by simp) hall tok hl⟩

/-!
Dispatch lemmas: with the allow-list empty and the earlier command tests
false, `step` lands in a named branch.
-/

theorem step_dispatch_additem (ctx : Ctx) (st : State)
    (hallow : ctx.allowed = [])
    (h1 : strStartsWith (lowText ctx) "!yesno" = false)
    (h2 : strStartsWith (lowText ctx) "!trun" = false)
    (h3 : strStartsWith (lowText ctx) "!pick" = false)
    (h4 : strStartsWith (lowText ctx) "!help" = false)
    (h5 : strStartsWith (lowText ctx) "!gid" = false)
    (h6 : strStartsWith (lowText ctx) "!uid" = false)
    (h7 : strStartsWith (lowText ctx) "!additem" = true) :
    step ctx st = step_additem ctx st := by
  unfold step
  rw [hallow]
  simp [h1, h2, h3, h4, h5, h6, h7]

theorem step_dispatch_borrow_return (ctx : Ctx) (st : State)
    (hallow : ctx.allowed = [])
    (h1 : strStartsWith (lowText ctx) "!yesno" = false)
    (h2 : strStartsWith (lowText ctx) "!trun" = false)
    (h3 : strStartsWith (lowText ctx) "!pick" = false)
    (h4 : strStartsWith (lowText ctx) "!help" = false)
    (h5 : strStartsWith (lowText ctx) "!gid" = false)
    (h6 : strStartsWith (lowText ctx) "!uid" = false)
    (h7 : strStartsWith (lowText ctx) "!additem" = false)
    (h8 : strStartsWith (lowText ctx) "!status" = false)
    (h9 : (strStartsWith (lowText ctx) "!borrow" || strStartsWith (lowText ctx) "!return") = true) :
    step ctx st = step_borrow_return ctx st := by
  unfold step
  rw [hallow]
  simp [h1, h2, h3, h4, h5, h6, h7, h8, h9]

theorem step_br_reduce (ctx : Ctx) (st : State) (t0 item tok : String) (rest : List String)
    (qty : Int)
    (htok : tokensOf ctx = t0 :: item :: tok :: rest)
    (hrec : lstripDashIsdigit tok = true)
    (hq : pyInt tok = some qty) :
    step_borrow_return ctx st
      = (match get_item st.items item with
         | Except.error _ => (Outcome.errored, st)
         | Except.ok none => (Outcome.bitemNotFound item, st)
         | Except.ok (some r) =>
           if strStartsWith (lowText ctx) "!borrow" then step_borrow_exec ctx st qty r
           else step_return_exec ctx st qty) := by
  have hget2 : (tokensOf ctx).getD 2 "" = tok := by rw [htok]; rfl
  have hget1 : (tokensOf ctx).getD 1 "" = item := by rw [htok]; rfl
  unfold step_borrow_return
  have hcond : ¬ ((tokensOf ctx).length < 3 ∨
      ¬ lstripDashIsdigit ((tokensOf ctx).getD 2 "") = true) := by
    rw [hget2, htok]
    simp only [List.length_cons, hrec, not_true, or_false, not_lt]
    omega
  rw [if_neg hcond, hget2, hq, hget1]

/-- C1: a Return command by an actor holding `hv > 0` units of an existing
item, with requested `qty > 0`, appends exactly one transaction with delta
`-(min qty hv)`, and the reply notes the automatic adjustment exactly when
`min qty hv < qty`; in particular `hv < qty` returns exactly `hv` units and
`qty ≤ hv` returns exactly `qty`. -/
theorem claim_C1_return_clamp (ctx : Ctx) (st : State) (t0 item tok : String)
    (rest : List String) (qty : Int) (r : ItemRec)
    (hallow : ctx.allowed = [])
    (h1 : strStartsWith (lowText ctx) "!yesno" = false)
    (h2 : strStartsWith (lowText ctx) "!trun" = false)
    (h3 : strStartsWith (lowText ctx) "!pick" = false)
    (h4 : strStartsWith (lowText ctx) "!help" = false)
    (h5 : strStartsWith (lowText ctx) "!gid" = false)
    (h6 : strStartsWith (lowText ctx) "!uid" = false)
    (h7 : strStartsWith (lowText ctx) "!additem" = false)
    (h8 : strStartsWith (lowText ctx) "!status" = false)
    (h9 : strStartsWith (lowText ctx) "!borrow" = false)
    (h10 : strStartsWith (lowText ctx) "!return" = true)
    (htok : tokensOf ctx = t0 :: item :: tok :: rest)
    (hrec : lstripDashIsdigit tok = true)
    (hq : pyInt tok = some qty)
    (hqpos : 0 < qty)
    (hitem : get_item st.items item = Except.ok (some r))
    (hhv : 0 < user_borrowed st.tx ctx.uid item) :
    step ctx st
      = (Outcome.returnOk item (min qty (user_borrowed st.tx ctx.uid item))
          (pyOr ctx.dispName ctx.uid) (user_borrowed st.tx ctx.uid item) qty,
         { st with tx :=
             (add_tx st.tx ctx.now ctx.gid ctx.uid (pyOr ctx.dispName ctx.uid) item
               (-(min qty (user_borrowed st.tx ctx.uid item))) (noteOf (tokensOf ctx))) }) ∧
    (handle_text ctx st).1
      = some ("歸還成功：" ++ item ++ " x "
          ++ intToStr (min qty (user_borrowed st.tx ctx.uid item))
          ++ "（" ++ pyOr ctx.dispName ctx.uid ++ "）"
          ++ (if min qty (user_borrowed st.tx ctx.uid item) < qty then
                "（你手上只有 " ++ intToStr (user_borrowed st.tx ctx.uid item) ++ "，已自動調整）"
              else "")) ∧
    (user_borrowed st.tx ctx.uid item < qty →
      min qty (user_borrowed st.tx ctx.uid item) = user_borrowed st.tx ctx.uid item) ∧
    (qty ≤ user_borrowed st.tx ctx.uid item →
      min qty (user_borrowed st.tx ctx.uid item) = qty) := by
  have hdisp := step_dispatch_borrow_return ctx st hallow h1 h2 h3 h4 h5 h6 h7 h8
    (by simp [h9, h10])
  have hred := step_br_reduce ctx st t0 item tok rest qty htok hrec hq
  have hget1 : (tokensOf ctx).getD 1 "" = item := by rw [htok]; rfl
  have hstep : step ctx st = step_return_exec ctx st qty := by
    rw [hdisp, hred, hitem]
    show (if strStartsWith (lowText ctx) "!borrow" = true then step_borrow_exec ctx st qty r
          else step_return_exec ctx st qty) = _
    rw [if_neg (by simp [h9])]
  have hexec : step_return_exec ctx st qty
      = (Outcome.returnOk item (min qty (user_borrowed st.tx ctx.uid item))
          (pyOr ctx.dispName ctx.uid) (user_borrowed st.tx ctx.uid item) qty,
         { st with tx :=
             (add_tx st.tx ctx.now ctx.gid ctx.uid (pyOr ctx.dispName ctx.uid) item
               (-(min qty (user_borrowed st.tx ctx.uid item))) (noteOf (tokensOf ctx))) }) := by
    unfold step_return_exec
    rw [hget1]
    rw [if_neg (by omega), if_neg (by omega)]
  refine ⟨by rw [hstep, hexec], ?_, by omega, by omega⟩
  have hfst : (step ctx st).1
      = Outcome.returnOk item (min qty (user_borrowed st.tx ctx.uid item))
          (pyOr ctx.dispName ctx.uid) (user_borrowed st.tx ctx.uid item) qty := by
    rw [hstep, hexec]
  rw [show (handle_text ctx st).1 = render (step ctx st).1 from rfl, hfst]
  simp only [render]
  have hif : (if min qty (user_borrowed st.tx ctx.uid item) = qty then ""
        else "（你手上只有 " ++ intToStr (user_borrowed st.tx ctx.uid item) ++ "，已自動調整）")
      = (if min qty (user_borrowed st.tx ctx.uid item) < qty then
          "（你手上只有 " ++ intToStr (user_borrowed st.tx ctx.uid item) ++ "，已自動調整）"
        else "") := by
    rcases (min_le_left qty (user_borrowed st.tx ctx.uid item)).lt_or_eq with hlt | heq
    · rw [if_neg (ne_of_lt hlt), if_pos hlt]
    · rw [if_pos heq, if_neg (by omega)]
  rw [hif]

/-- C2: a Borrow command behaves by cases: absent item gives ItemNotFound
with no write; `qty ≤ 0` gives InvalidQuantity with no write; short stock
gives InsufficientStock reporting remaining and requested quantities with
no write; otherwise exactly one transaction with delta `+qty` is appended
and the reply carries the quantity and the actor display name. -/
theorem claim_C2_borrow_rules (ctx : Ctx) (st : State) (t0 item tok : String)
    (rest : List String) (qty : Int)
    (hallow : ctx.allowed = [])
    (h1 : strStartsWith (lowText ctx) "!yesno" = false)
    (h2 : strStartsWith (lowText ctx) "!trun" = false)
    (h3 : strStartsWith (lowText ctx) "!pick" = false)
    (h4 : strStartsWith (lowText ctx) "!help" = false)
    (h5 : strStartsWith (lowText ctx) "!gid" = false)
    (h6 : strStartsWith (lowText ctx) "!uid" = false)
    (h7 : strStartsWith (lowText ctx) "!additem" = false)
    (h8 : strStartsWith (lowText ctx) "!status" = false)
    (h9 : strStartsWith (lowText ctx) "!borrow" = true)
    (htok : tokensOf ctx = t0 :: item :: tok :: rest)
    (hrec : lstripDashIsdigit tok = true)
    (hq : pyInt tok = some qty) :
    (get_item st.items item = Except.ok none →
      step ctx st = (Outcome.bitemNotFound item, st) ∧
      (handle_text ctx st).1 = some ("尚未建立物品：" ++ item ++ "（先用 !additem）")) ∧
    (∀ r : ItemRec, get_item st.items item = Except.ok (some r) → qty ≤ 0 →
      step ctx st = (Outcome.invalidQty, st) ∧
      (handle_text ctx st).1 = some "數量需為正整數。") ∧
    (∀ r : ItemRec, get_item st.items item = Except.ok (some r) → 0 < qty →
      r.total - sum_borrowed st.tx item < qty →
      step ctx st = (Outcome.insufficient item (r.total - sum_borrowed st.tx item) qty, st) ∧
      (handle_text ctx st).1 = some ("可借不足：" ++ item ++ " 剩 "
        ++ intToStr (r.total - sum_borrowed st.tx item) ++ "，你要 " ++ intToStr qty)) ∧
    (∀ r : ItemRec, get_item st.items item = Except.ok (some r) → 0 < qty →
      ¬ (r.total - sum_borrowed st.tx item < qty) →
      step ctx st = (Outcome.borrowOk item qty (pyOr ctx.dispName ctx.uid),
        { st with tx := (add_tx st.tx ctx.now ctx.gid ctx.uid (pyOr ctx.dispName ctx.uid)
            item qty (noteOf (tokensOf ctx))) }) ∧
      (handle_text ctx st).1 = some ("借出成功：" ++ item ++ " x " ++ intToStr qty
        ++ "（" ++ pyOr ctx.dispName ctx.uid ++ "）")) := by
  have hdisp := step_dispatch_borrow_return ctx st hallow h1 h2 h3 h4 h5 h6 h7 h8
    (by simp [h9])
  have hred := step_br_reduce ctx st t0 item tok rest qty htok hrec hq
  have hget1 : (tokensOf ctx).getD 1 "" = item := by rw [htok]; rfl
  have hh : (handle_text ctx st).1 = render (step ctx st).1 := rfl
  refine ⟨?_, ?_, ?_, ?_⟩
  · intro hitem
    have hs : step ctx st = (Outcome.bitemNotFound item, st) := by
      rw [hdisp, hred, hitem]
    exact ⟨hs, by rw [hh, hs]; rfl⟩
  · intro r hitem hq0
    have hs : step ctx st = (Outcome.invalidQty, st) := by
      rw [hdisp, hred, hitem]
      show (if strStartsWith (lowText ctx) "!borrow" = true then step_borrow_exec ctx st qty r
            else step_return_exec ctx st qty) = _
      rw [if_pos h9]
      unfold step_borrow_exec
      rw [if_pos hq0]
    exact ⟨hs, by rw [hh, hs]; rfl⟩
  · intro r hitem hq0 hlt
    have hs : step ctx st
        = (Outcome.insufficient item (r.total - sum_borrowed st.tx item) qty, st) := by
      rw [hdisp, hred, hitem]
      show (if strStartsWith (lowText ctx) "!borrow" = true then step_borrow_exec ctx st qty r
            else step_return_exec ctx st qty) = _
      rw [if_pos h9]
      unfold step_borrow_exec
      rw [hget1]
      rw [if_neg (by omega), if_pos hlt]
    exact ⟨hs, by rw [hh, hs]; rfl⟩
  · intro r hitem hq0 hge
    have hs : step ctx st
        = (Outcome.borrowOk item qty (pyOr ctx.dispName ctx.uid),
           { st with tx := (add_tx st.tx ctx.now ctx.gid ctx.uid (pyOr ctx.dispName ctx.uid)
               item qty (noteOf (tokensOf ctx))) }) := by
      rw [hdisp, hred, hitem]
      show (if strStartsWith (lowText ctx) "!borrow" = true then step_borrow_exec ctx st qty r
            else step_return_exec ctx st qty) = _
      rw [if_pos h9]
      unfold step_borrow_exec
      rw [hget1]
      rw [if_neg (by omega), if_neg hge]
    exact ⟨hs, by rw [hh, hs]; rfl⟩

/-- C6 (amended): every total token the !additem handler accepts stores the
parsed integer value of that token; when the token has no leading minus
sign the stored total is nonnegative (a minus-signed token is accepted too
and may store a negative total). -/
theorem claim_C6_accepted_total (ctx : Ctx) (st : State) (t0 item tok : String)
    (rest : List String) (total : Int)
    (hallow : ctx.allowed = [])
    (h1 : strStartsWith (lowText ctx) "!yesno" = false)
    (h2 : strStartsWith (lowText ctx) "!trun" = false)
    (h3 : strStartsWith (lowText ctx) "!pick" = false)
    (h4 : strStartsWith (lowText ctx) "!help" = false)
    (h5 : strStartsWith (lowText ctx) "!gid" = false)
    (h6 : strStartsWith (lowText ctx) "!uid" = false)
    (h7 : strStartsWith (lowText ctx) "!additem" = true)
    (htok : tokensOf ctx = t0 :: item :: tok :: rest)
    (hrec : lstripDashIsdigit tok = true)
    (hparse : pyInt tok = some total) :
    step ctx st = (Outcome.additemOk item total,
      { st with items := (upsert_item st.items item total (noteOf (tokensOf ctx))) }) ∧
    (handle_text ctx st).1 = some ("設定完成：" ++ item ++ " 總數量 = " ++ intToStr total) ∧
    (tok.toList.head? ≠ some '-' → 0 ≤ total) := by
  have hdisp := step_dispatch_additem ctx st hallow h1 h2 h3 h4 h5 h6 h7
  have hget2 : (tokensOf ctx).getD 2 "" = tok := by rw [htok]; rfl
  have hget1 : (tokensOf ctx).getD 1 "" = item := by rw [htok]; rfl
  have hs : step ctx st = (Outcome.additemOk item total,
      { st with items := (upsert_item st.items item total (noteOf (tokensOf ctx))) }) := by
    rw [hdisp]
    unfold step_additem
    have hcond : ¬ ((tokensOf ctx).length < 3 ∨
        ¬ lstripDashIsdigit ((tokensOf ctx).getD 2 "") = true) := by
      rw [hget2, htok]
      simp only [List.length_cons, hrec, not_true, or_false, not_lt]
      omega
    rw [if_neg hcond, hget2, hparse, hget1]
  refine ⟨hs, by rw [show (handle_text ctx st).1 = render (step ctx st).1 from rfl, hs]; rfl, ?_⟩
  intro hhead
  obtain ⟨n, hp⟩ := recognition_nonneg tok hrec hhead
  rw [hparse] at hp
  have := Option.some.inj hp
  rw [this]
  exact Int.natCast_nonneg n

/-- C7 (amended): a quantity token that is a nonempty digit run with at most
one leading minus sign passes the recognition test of !additem, !borrow and
!return, and the handler never answers with either usage string for it; the
plus sign of the original claim is in fact rejected. -/
theorem claim_C7_sign_recognition (tok : String) (ds : List Char) (hne : ds ≠ [])
    (hall : ds.all isDig = true) (hshape : tok.toList = ds ∨ tok.toList = '-' :: ds)
    (ctx : Ctx) (st : State) (t0 item : String) (rest : List String)
    (htok : tokensOf ctx = t0 :: item :: tok :: rest) :
    lstripDashIsdigit tok = true ∧
    (step ctx st).1 ≠ Outcome.additemUsage ∧ (step ctx st).1 ≠ Outcome.borrowUsage := by
  have hrec := lstripDashIsdigit_of_shape tok ds hne hall hshape
  have hlen : ¬ ((tokensOf ctx).length < 3 ∨
      ¬ lstripDashIsdigit ((tokensOf ctx).getD 2 "") = true) := by
    rw [show (tokensOf ctx).getD 2 "" = tok by rw [htok]; rfl, htok]
    simp only [List.length_cons, hrec, not_true, or_false, not_lt]
    omega
  exact ⟨hrec, step_usage_cond ctx st hlen⟩

/-- C4 (amended): when the lowercased text starts with none of the eleven
command tests (!yesno, !trun, !pick, !help, !gid, !uid, !additem, !status,
!borrow, !return, !mine), the handler yields no reply at all and leaves the
state unchanged; the original claim omitted the five extra commands. -/
theorem claim_C4_silence (ctx : Ctx) (st : State)
    (h1 : strStartsWith (lowText ctx) "!yesno" = false)
    (h2 : strStartsWith (lowText ctx) "!trun" = false)
    (h3 : strStartsWith (lowText ctx) "!pick" = false)
    (h4 : strStartsWith (lowText ctx) "!help" = false)
    (h5 : strStartsWith (lowText ctx) "!gid" = false)
    (h6 : strStartsWith (lowText ctx) "!uid" = false)
    (h7 : strStartsWith (lowText ctx) "!additem" = false)
    (h8 : strStartsWith (lowText ctx) "!status" = false)
    (h9 : strStartsWith (lowText ctx) "!borrow" = false)
    (h10 : strStartsWith (lowText ctx) "!return" = false)
    (h11 : strStartsWith (lowText ctx) "!mine" = false) :
    handle_text ctx st = (none, st) := by
  have hs : step ctx st = (Outcome.blocked, st) ∨ step ctx st = (Outcome.unrecognized, st) := by
    unfold step
    by_cases hb : (!ctx.allowed.isEmpty && !inAllowed ctx.gid ctx.allowed) = true
    · rw [if_pos hb]
      exact Or.inl rfl
    · rw [if_neg hb]
      simp [h1, h2, h3, h4, h5, h6, h7, h8, h9, h10, h11]
  rcases hs with hs | hs <;> (unfold handle_text; rw [hs]) <;> rfl

/-!
Concrete fixtures: a minimal catalog (item `pen`, total 3) and a ledger in
which user `U1` holds 2 pens, with the headers `_get_ws` maintains.
-/

/-- Event context for a given inbound text: no group, user `U1` shown as
`Alice`, fixed clock, deterministic choice, empty allow-list. -/
def wCtx (t : String) : Ctx :=
  { text := t, gid := none, uid := "U1", dispName := some "Alice",
    now := "2024-01-01T00:00:00+08:00", choice := fun _ => "", allowed := [] }

/-- Items grid: header plus one row `pen / 3`. -/
def wItems : List (List String) := [["item", "total", "note"], ["pen", "3", ""]]

/-- Transactions grid: header plus one borrow of 2 pens by `U1`. -/
def wTx : List (List String) :=
  [["ts", "group_id", "user_id", "user_name", "item", "delta", "note"],
   ["t1", "", "U1", "Alice", "pen", "2", ""]]

/-- The transactions grid with the data row's group cell altered. -/
def wTx2 : List (List String) :=
  [["ts", "group_id", "user_id", "user_name", "item", "delta", "note"],
   ["t1", "G9", "U1", "Alice", "pen", "2", ""]]

/-- Combined fixture state. -/
def wSt : State := ⟨wItems, wTx⟩

theorem claim_C1_return_clamp_witness :
    (step (wCtx "!return pen 5") wSt).2.tx
        = wTx ++ [["2024-01-01T00:00:00+08:00", "", "U1", "Alice", "pen", "-2", ""]] ∧
    (handle_text (wCtx "!return pen 5") wSt).1
        = some "歸還成功：pen x 2（Alice）（你手上只有 2，已自動調整）" := by
  have h := claim_C1_return_clamp (wCtx "!return pen 5") wSt "!return" "pen" "5" [] 5
    ⟨"pen", 3, some ""⟩ rfl (by decide) (by decide) (by decide) (by decide) (by decide)
    (by decide) (by decide) (by decide) (by decide) (by decide) (by decide) (by decide)
    (by decide) (by decide) (by decide) (by decide)
  constructor
  · rw [h.1]
    decide
  · rw [h.2.1]
    decide

theorem claim_C2_borrow_rules_witness :
    (step (wCtx "!borrow pen 1") wSt).2.tx
        = wTx ++ [["2024-01-01T00:00:00+08:00", "", "U1", "Alice", "pen", "1", ""]] ∧
    (handle_text (wCtx "!borrow pen 1") wSt).1 = some "借出成功：pen x 1（Alice）" := by
  have h := (claim_C2_borrow_rules (wCtx "!borrow pen 1") wSt "!borrow" "pen" "1" [] 1
    rfl (by decide) (by decide) (by decide) (by decide) (by decide) (by decide) (by decide)
    (by decide) (by decide) (by decide) (by decide) (by decide)).2.2.2
    ⟨"pen", 3, some ""⟩ (by decide) (by decide) (by decide)
  constructor
  · rw [h.1]
    decide
  · rw [h.2]
    decide

theorem claim_C3_rejection_witness :
    (step (wCtx "!borrow pen 0") wSt).2 = wSt :=
  claim_C3_rejection_leaves_no_trace (wCtx "!borrow pen 0") wSt (by decide)

/-- C4 counterexample: `!gid` matches none of the six documented prefixes,
yet the handler replies with the group id instead of staying silent. -/
theorem claim_C4_counterexample :
    wsTokens "!gid" = ["!gid"] ∧
    (strStartsWith "!gid" "!additem" = false ∧ strStartsWith "!gid" "!borrow" = false ∧
     strStartsWith "!gid" "!return" = false ∧ strStartsWith "!gid" "!status" = false ∧
     strStartsWith "!gid" "!mine" = false ∧ strStartsWith "!gid" "!help" = false) ∧
    (handle_text (wCtx "!gid") wSt).1 = some "groupId: （非群組）" := by
  decide

theorem claim_C4_silence_witness :
    handle_text (wCtx "hello") wSt = (none, wSt) :=
  claim_C4_silence (wCtx "hello") wSt (by decide) (by decide) (by decide) (by decide)
    (by decide) (by decide) (by decide) (by decide) (by decide) (by decide) (by decide)

/-- C6 counterexample: `!additem pen2 -5` is accepted (no usage reply) and
stores the negative total -5. -/
theorem claim_C6_counterexample :
    (step (wCtx "!additem pen2 -5") wSt).1 = Outcome.additemOk "pen2" (-5) ∧
    (step (wCtx "!additem pen2 -5") wSt).2.items = wItems ++ [["pen2", "-5", ""]] ∧
    ¬ (0 ≤ (-5 : Int)) := by
  decide

theorem claim_C6_accepted_total_witness :
    (step (wCtx "!additem box 7") wSt).2.items = wItems ++ [["box", "7", ""]] ∧
    (0 : Int) ≤ 7 := by
  have h := claim_C6_accepted_total (wCtx "!additem box 7") wSt "!additem" "box" "7" [] 7
    rfl (by decide) (by decide) (by decide) (by decide) (by decide) (by decide) (by decide)
    (by decide) (by decide) (by decide)
  constructor
  · rw [h.1]
    decide
  · exact h.2.2 (by decide)

/-- C7 counterexample: a plus-signed quantity `+5` is rejected with the
usage string, though the claim says an optional leading '+' is accepted. -/
theorem claim_C7_counterexample :
    "+5".toList = ['+', '5'] ∧
    (handle_text (wCtx "!borrow pen +5") wSt).1
      = some "用法：!borrow 物品 數量 [備註]；!return 同上" := by
  decide

theorem claim_C7_sign_recognition_witness :
    lstripDashIsdigit "-2" = true ∧
    (step (wCtx "!borrow pen -2") wSt).1 ≠ Outcome.borrowUsage := by
  have h := claim_C7_sign_recognition "-2" ['2'] (by decide) (by decide)
    (Or.inr (by decide)) (wCtx "!borrow pen -2") wSt "!borrow" "pen" [] (by decide)
  exact ⟨h.1, h.2.2⟩

/-- C8: `upsert_item` looks the name up in `col_values(1)`, which includes
the header row, so defining an item literally named `item` overwrites the
header cells instead of creating a row: `get_item "item"` stays absent and
the corrupted header makes the other rows' totals read as 0. -/
theorem claim_C8_header_collision :
    upsert_item wItems "item" 7 "x" = [["item", "7", "x"], ["pen", "3", ""]] ∧
    get_item (upsert_item wItems "item" 7 "x") "item" = Except.ok none ∧
    get_item (upsert_item wItems "item" 7 "x") "pen" = Except.ok (some ⟨"pen", 0, none⟩) := by
  decide

theorem claim_C10_group_blind_witness :
    sum_borrowed wTx2 "pen" = sum_borrowed wTx "pen" ∧
    mine_lines wTx2 "U1" = mine_lines wTx "U1" := by
  have h := claim_C10_group_blind wTx wTx2
    (List.Forall₂.cons ⟨"group_id", by decide⟩
      (List.Forall₂.cons ⟨"G9", by decide⟩ List.Forall₂.nil)) "U1" "pen"
  exact ⟨h.1, h.2.2⟩

end LineBot
